import Mathlib

/-!
Shallow embedding of src/ClaimDecomp-Llama/Notebook/OllamaCached.py.

External effects of the source (ollama.list, ollama.pull, ollama.chat, print,
tqdm progress bars) are made explicit: the pull progress loop becomes a state
machine over progress events, and each prompt-assembler variant records the
sequence of observable effects it performs, with the chat endpoint abstracted
as a function argument.
-/

namespace OllamaCached

/-- A chat message dict with role and content fields. -/
structure Msg where
  role : String
  content : String
deriving DecidableEq

/-- The record returned by ollama.chat; the source reads
response["message"]["content"]. -/
structure ChatResponse where
  message : Msg
deriving DecidableEq

/-- One element of a messages list handed to ollama.chat. The source passes
either a proper message dict or, at line 115, a whole chat-response record. -/
inductive Entry where
  | msg (m : Msg)
  | resp (r : ChatResponse)
deriving DecidableEq

/-- One streamed progress event from ollama.pull. Absent dict keys are none;
progress.get at line 29 defaults the digest to the empty string. -/
structure ProgressEvent where
  digest : String
  status : Option String
  total : Option Nat
  completed : Option Nat
deriving DecidableEq

/-- A tqdm progress bar: its declared total, its current position n, and
whether close() has been called. tqdm ignores update and close on an
already-closed bar. -/
structure Bar where
  total : Nat
  n : Nat
  closed : Bool
deriving DecidableEq

/-- Observable display actions of the pull progress loop. barClose records
the displayed position at the moment the bar is finalized. -/
inductive BarAction where
  | barOpen (digest : String) (total : Nat)
  | barUpdate (digest : String) (n : Nat)
  | barClose (digest : String) (finalN : Nat)
  | statusLine (s : Option String)
deriving DecidableEq

/-- State of the progress loop of lines 27-43: the bars dict (an
insertion-ordered association list), the current_digest variable, and the
display actions performed so far. -/
structure PullState where
  bars : List (String × Bar)
  currentDigest : String
  trace : List BarAction
deriving DecidableEq

/-- Python dict lookup bars[d]; isSome is the membership test d in bars. -/
def lookupBar : List (String × Bar) → String → Option Bar
  | [], _ => none
  | (k, b) :: rest, d => if k = d then some b else lookupBar rest d

/-- Python dict assignment bars[d] = v: updates an existing key in place,
appends a new key at the end. -/
def setBar : List (String × Bar) → String → Bar → List (String × Bar)
  | [], d, v => [(d, v)]
  | (k, b) :: rest, d, v =>
    if k = d then (d, v) :: rest else (k, b) :: setBar rest d v

/-- Line 31, bars[current_digest].close(): tqdm close is a no-op when the
bar is already closed, otherwise it finalizes the display at position n. -/
def closeCurrent (st : PullState) : PullState :=
  match lookupBar st.bars st.currentDigest with
  | none => st
  | some b =>
    if b.closed then st
    else { st with
            bars := setBar st.bars st.currentDigest { b with closed := true },
            trace := st.trace ++ [BarAction.barClose st.currentDigest b.n] }

/-- Lines 30-31: when the event's digest differs from current_digest and
current_digest is a key of bars, close the previous bar. -/
def stepClose (st : PullState) (digest : String) : PullState :=
  if digest ≠ st.currentDigest ∧ (lookupBar st.bars st.currentDigest).isSome
  then closeCurrent st else st

/-- Lines 37-38: when the digest is not a key of bars and the event carries a
truthy (present and nonzero) total, open a new bar sized to that total. -/
def stepOpen (st : PullState) (digest : String) (total : Option Nat) : PullState :=
  if (lookupBar st.bars digest).isNone then
    match total with
    | some t =>
      if t ≠ 0 then
        { st with bars := setBar st.bars digest ⟨t, 0, false⟩,
                  trace := st.trace ++ [BarAction.barOpen digest t] }
      else st
    | none => st
  else st

/-- Lines 40-43: when the event carries a truthy (present and nonzero)
completed count, bars[digest].update(completed - bars[digest].n) moves the
bar position to exactly that count (a no-op on a closed bar); when digest is
not a key of bars this access raises KeyError, encoded as the false flag, and
current_digest is then never reassigned. Otherwise current_digest becomes
the digest. -/
def stepUpdate (st : PullState) (digest : String) (completed : Option Nat) :
    PullState × Bool :=
  match completed with
  | some c =>
    if c ≠ 0 then
      match lookupBar st.bars digest with
      | some b =>
        (if b.closed then { st with currentDigest := digest }
         else { st with bars := setBar st.bars digest { b with n := c },
                        trace := st.trace ++ [BarAction.barUpdate digest c],
                        currentDigest := digest }, true)
      | none => (st, false)
    else ({ st with currentDigest := digest }, true)
  | none => ({ st with currentDigest := digest }, true)

/-- One iteration of the loop body, lines 29-43: close a finished bar on a
digest change, then either print the status of a digest-less event (leaving
current_digest untouched, the continue of line 35), or open and update the
bar for the event's digest. The Bool is false when the iteration raises. -/
def processEvent (st : PullState) (e : ProgressEvent) : PullState × Bool :=
  let st1 := stepClose st e.digest
  if e.digest = "" then
    ({ st1 with trace := st1.trace ++ [BarAction.statusLine e.status] }, true)
  else
    stepUpdate (stepOpen st1 e.digest e.total) e.digest e.completed

/-- Line 27: current_digest, bars = two empty values, and no display yet. -/
def initPull : PullState := ⟨[], "", []⟩

/-- The for-loop over the ollama.pull event stream, lines 28-43; it stops at
the first raising iteration, whose exception propagates to the caller. -/
def processEvents : PullState → List ProgressEvent → PullState × Bool
  | st, [] => (st, true)
  | st, e :: es =>
    match processEvent st e with
    | (st1, true) => processEvents st1 es
    | (st1, false) => (st1, false)

/-- Observable effects of check_and_download_model and of the four chat
helpers: the catalog query, the pull invocation, progress display actions,
console prints, and chat calls. -/
inductive Effect where
  | listModels
  | pullCall (modelName : String)
  | bar (a : BarAction)
  | printLine (s : String)
  | chatCall (model : String) (messages : List Entry)
deriving DecidableEq

/-- The membership loop of lines 18-23: every existing model name is compared
to model_name by exact string equality, folding into the model_exists flag. -/
def model_exists (existing_models : List String) (model_name : String) : Bool :=
  existing_models.foldl (fun acc name => if name = model_name then true else acc) false

/-- check_and_download_model, lines 11-46, over an explicit catalog of model
names (the name fields returned by ollama.list) and an explicit pull event
stream (what ollama.pull yields). Returns the performed effects and false
exactly when the progress loop raised, in which case the trailing
"Download Complete." print is never reached. -/
def check_and_download_model (catalog : List String) (model_name : String)
    (events : List ProgressEvent) : List Effect × Bool :=
  if model_exists catalog model_name then
    ([Effect.listModels,
      Effect.printLine "Model Cached - Using Cached Version..."], true)
  else
    match processEvents initPull events with
    | (st, true) =>
      ([Effect.listModels, Effect.printLine "Model Uncached - Downloading...",
        Effect.pullCall model_name]
        ++ st.trace.map Effect.bar
        ++ [Effect.printLine "Download Complete."], true)
    | (st, false) =>
      ([Effect.listModels, Effect.printLine "Model Uncached - Downloading...",
        Effect.pullCall model_name] ++ st.trace.map Effect.bar, false)

/-- zero_shot, lines 53-67. The chat endpoint is abstracted as a function
from a model name and a messages list to a response. When the model check
raises, the exception propagates and no chat call happens. -/
def zero_shot (chat : String → List Entry → ChatResponse) (catalog : List String)
    (events : List ProgressEvent) (model_name message : String) :
    List Effect × Except String String :=
  match check_and_download_model catalog model_name events with
  | (eff, false) => (eff, Except.error "pull failed")
  | (eff, true) =>
    let msgs := [Entry.msg ⟨"user", message⟩]
    (eff ++ [Effect.printLine ("Zero Shot (" ++ model_name ++ "):"),
             Effect.chatCall model_name msgs],
     Except.ok (chat model_name msgs).message.content)

/-- The accumulator loop of lines 84-86: each pair overwrites the accumulator
(initially two newlines) instead of appending to it, so only the last pair
survives. -/
def few_shot_message (training_data : List (String × String)) : String :=
  training_data.foldl
    (fun _ pair => "Input: " ++ pair.1 ++ "\nOutput: " ++ pair.2 ++ "\n") "\n\n"

/-- few_shot, lines 70-89: one chat call whose prompt is the accumulator
value followed by two newlines and the caller message. -/
def few_shot (chat : String → List Entry → ChatResponse) (catalog : List String)
    (events : List ProgressEvent) (model_name : String)
    (training_data : List (String × String)) (message : String) :
    List Effect × Except String String :=
  match check_and_download_model catalog model_name events with
  | (eff, false) => (eff, Except.error "pull failed")
  | (eff, true) =>
    let msgs := [Entry.msg ⟨"user", few_shot_message training_data ++ "\n\n" ++ message⟩]
    (eff ++ [Effect.printLine ("Few Shot (" ++ model_name ++ "): "
               ++ toString training_data.length ++ " Samples"),
             Effect.chatCall model_name msgs],
     Except.ok (chat model_name msgs).message.content)

/-- chain_of_reasoning_zero_shot, lines 92-120. Line 115 passes the whole
first response record, not just its message field, as the first entry of the
second call's messages list. -/
def chain_of_reasoning_zero_shot (chat : String → List Entry → ChatResponse)
    (catalog : List String) (events : List ProgressEvent)
    (model_name message : String) : List Effect × Except String String :=
  match check_and_download_model catalog model_name events with
  | (eff, false) => (eff, Except.error "pull failed")
  | (eff, true) =>
    let initial_messages := [Entry.msg ⟨"user", message⟩,
                             Entry.msg ⟨"assistant", "Let's think step by step."⟩]
    let complex_response := chat model_name initial_messages
    let second_messages := [Entry.resp complex_response,
                            Entry.msg ⟨"assistant", "Therefore, the final answer is "⟩]
    (eff ++ [Effect.printLine ("Chain of Reasoning - Zero Shot (" ++ model_name ++ "):"),
             Effect.chatCall model_name initial_messages,
             Effect.chatCall model_name second_messages],
     Except.ok ((chat model_name second_messages).message.content))

/-- chain_of_reasoning_few_shot, lines 123-159. Line 140 consumes
training_data through a .map method; Python list and array.array values have
no such method, so evaluation raises AttributeError there, after the model
check and the banner print but before either chat call. Lines 142-159 are
unreachable for such inputs. -/
def chain_of_reasoning_few_shot (chat : String → List Entry → ChatResponse)
    (catalog : List String) (events : List ProgressEvent) (model_name : String)
    (training_data : List (String × String)) (message : String) :
    List Effect × Except String String :=
  match check_and_download_model catalog model_name events with
  | (eff, false) => (eff, Except.error "pull failed")
  | (eff, true) =>
    (eff ++ [Effect.printLine ("Few Shot - Chain of Reasoning (" ++ model_name ++ "): "
               ++ toString training_data.length ++ " Samples")],
     Except.error "AttributeError: list object has no attribute map")

/-- The chat calls recorded in an effect sequence, in order, as pairs of the
model name and the messages list. -/
def chatCallsOf : List Effect → List (String × List Entry)
  | [] => []
  | Effect.chatCall m msgs :: rest => (m, msgs) :: chatCallsOf rest
  | _ :: rest => chatCallsOf rest

/-- The number of ollama.pull invocations recorded in an effect sequence. -/
def pullCallCount : List Effect → Nat
  | [] => 0
  | Effect.pullCall _ :: rest => pullCallCount rest + 1
  | _ :: rest => pullCallCount rest

/-- A constant chat endpoint, used to instantiate theorems at concrete
inputs. -/
def constChat : String → List Entry → ChatResponse := fun _ _ => ⟨⟨"assistant", "ok"⟩⟩

theorem chatCallsOf_append (l1 l2 : List Effect) :
    chatCallsOf (l1 ++ l2) = chatCallsOf l1 ++ chatCallsOf l2 := by
  induction l1 with
  | nil => rfl
  | cons a l ih => cases a <;> simp [chatCallsOf, ih]

theorem chatCallsOf_map_bar (l : List BarAction) :
    chatCallsOf (l.map Effect.bar) = [] := by
  induction l with
  | nil => rfl
  | cons a l ih => simp [chatCallsOf, ih]

theorem pullCallCount_append (l1 l2 : List Effect) :
    pullCallCount (l1 ++ l2) = pullCallCount l1 + pullCallCount l2 := by
  induction l1 with
  | nil => simp [pullCallCount]
  | cons a l ih => cases a <;> simp [pullCallCount, ih] <;> omega

theorem pullCallCount_map_bar (l : List BarAction) :
    pullCallCount (l.map Effect.bar) = 0 := by
  induction l with
  | nil => rfl
  | cons a l ih => simp [pullCallCount, ih]

/-- The model check never issues a chat call itself. -/
theorem check_chatCalls (catalog : List String) (model_name : String)
    (events : List ProgressEvent) :
    chatCallsOf (check_and_download_model catalog model_name events).1 = [] := by
  rcases hp : processEvents initPull events with ⟨st, ok⟩
  cases hb : model_exists catalog model_name <;> cases ok <;>
    simp [check_and_download_model, hb, hp, chatCallsOf_append, chatCallsOf_map_bar,
      chatCallsOf]

/-- The first effect of the model check is always the catalog query. -/
theorem check_effects_cons (catalog : List String) (model_name : String)
    (events : List ProgressEvent) :
    ∃ rest, (check_and_download_model catalog model_name events).1
      = Effect.listModels :: rest := by
  rcases hp : processEvents initPull events with ⟨st, ok⟩
  cases hb : model_exists catalog model_name <;> cases ok <;>
    simp [check_and_download_model, hb, hp]

theorem model_exists_aux (model_name : String) (catalog : List String) :
    ∀ b : Bool,
      (catalog.foldl (fun acc name => if name = model_name then true else acc) b = true)
        ↔ (b = true ∨ model_name ∈ catalog) := by
  induction catalog with
  | nil => intro b; simp
  | cons x l ih =>
    intro b
    rw [List.foldl_cons, ih]
    by_cases hx : x = model_name <;> simp [hx, List.mem_cons] <;> tauto

/-- The membership loop computes exact-string membership in the catalog. -/
theorem model_exists_iff (catalog : List String) (model_name : String) :
    model_exists catalog model_name = true ↔ model_name ∈ catalog := by
  unfold model_exists
  rw [model_exists_aux]
  simp

theorem zero_shot_calls (chat : String → List Entry → ChatResponse)
    (catalog : List String) (events : List ProgressEvent) (model_name message : String)
    (hck : (check_and_download_model catalog model_name events).2 = true) :
    chatCallsOf (zero_shot chat catalog events model_name message).1
      = [(model_name, [Entry.msg ⟨"user", message⟩])]
    ∧ (zero_shot chat catalog events model_name message).2
      = Except.ok ((chat model_name [Entry.msg ⟨"user", message⟩]).message.content) := by
  rcases hc : check_and_download_model catalog model_name events with ⟨eff, ok⟩
  rw [hc] at hck
  cases ok
  · simp at hck
  · have he : chatCallsOf eff = [] := by
      have h2 := check_chatCalls catalog model_name events
      rw [hc] at h2; exact h2
    simp [zero_shot, hc, chatCallsOf_append, he, chatCallsOf]

theorem few_shot_calls (chat : String → List Entry → ChatResponse)
    (catalog : List String) (events : List ProgressEvent) (model_name : String)
    (training_data : List (String × String)) (message : String)
    (hck : (check_and_download_model catalog model_name events).2 = true) :
    chatCallsOf (few_shot chat catalog events model_name training_data message).1
      = [(model_name,
          [Entry.msg ⟨"user", few_shot_message training_data ++ "\n\n" ++ message⟩])] := by
  rcases hc : check_and_download_model catalog model_name events with ⟨eff, ok⟩
  rw [hc] at hck
  cases ok
  · simp at hck
  · have he : chatCallsOf eff = [] := by
      have h2 := check_chatCalls catalog model_name events
      rw [hc] at h2; exact h2
    simp [few_shot, hc, chatCallsOf_append, he, chatCallsOf]

theorem chain_of_reasoning_zero_shot_calls (chat : String → List Entry → ChatResponse)
    (catalog : List String) (events : List ProgressEvent) (model_name message : String)
    (hck : (check_and_download_model catalog model_name events).2 = true) :
    chatCallsOf (chain_of_reasoning_zero_shot chat catalog events model_name message).1
      = [(model_name, [Entry.msg ⟨"user", message⟩,
                       Entry.msg ⟨"assistant", "Let's think step by step."⟩]),
         (model_name,
          [Entry.resp (chat model_name
             [Entry.msg ⟨"user", message⟩,
              Entry.msg ⟨"assistant", "Let's think step by step."⟩]),
           Entry.msg ⟨"assistant", "Therefore, the final answer is "⟩])]
    ∧ (chain_of_reasoning_zero_shot chat catalog events model_name message).2
      = Except.ok ((chat model_name
          [Entry.resp (chat model_name
             [Entry.msg ⟨"user", message⟩,
              Entry.msg ⟨"assistant", "Let's think step by step."⟩]),
           Entry.msg ⟨"assistant", "Therefore, the final answer is "⟩]).message.content) := by
  rcases hc : check_and_download_model catalog model_name events with ⟨eff, ok⟩
  rw [hc] at hck
  cases ok
  · simp at hck
  · have he : chatCallsOf eff = [] := by
      have h2 := check_chatCalls catalog model_name events
      rw [hc] at h2; exact h2
    simp [chain_of_reasoning_zero_shot, hc, chatCallsOf_append, he, chatCallsOf]

/-- Whatever the environment, chain_of_reasoning_few_shot records no chat
call: either the model check raises first, or the .map access raises. -/
theorem chain_of_reasoning_few_shot_calls (chat : String → List Entry → ChatResponse)
    (catalog : List String) (events : List ProgressEvent) (model_name : String)
    (training_data : List (String × String)) (message : String) :
    chatCallsOf (chain_of_reasoning_few_shot chat catalog events model_name
      training_data message).1 = [] := by
  rcases hc : check_and_download_model catalog model_name events with ⟨eff, ok⟩
  have he : chatCallsOf eff = [] := by
    have h2 := check_chatCalls catalog model_name events
    rw [hc] at h2; exact h2
  cases ok <;>
    simp [chain_of_reasoning_few_shot, hc, chatCallsOf_append, he, chatCallsOf]

theorem chain_of_reasoning_few_shot_result (chat : String → List Entry → ChatResponse)
    (catalog : List String) (events : List ProgressEvent) (model_name : String)
    (training_data : List (String × String)) (message : String)
    (hck : (check_and_download_model catalog model_name events).2 = true) :
    (chain_of_reasoning_few_shot chat catalog events model_name training_data message).2
      = Except.error "AttributeError: list object has no attribute map" := by
  rcases hc : check_and_download_model catalog model_name events with ⟨eff, ok⟩
  rw [hc] at hck
  cases ok
  · simp at hck
  · simp [chain_of_reasoning_few_shot, hc]

theorem zero_shot_head (chat : String → List Entry → ChatResponse)
    (catalog : List String) (events : List ProgressEvent) (model_name message : String) :
    (zero_shot chat catalog events model_name message).1.head?
      = some Effect.listModels := by
  rcases hr : (check_and_download_model catalog model_name events).1 with _ | ⟨a, rest⟩
  · rcases check_effects_cons catalog model_name events with ⟨rest, hr2⟩
    rw [hr] at hr2; cases hr2
  · rcases check_effects_cons catalog model_name events with ⟨rest2, hr2⟩
    rw [hr] at hr2
    rcases hc : check_and_download_model catalog model_name events with ⟨eff, ok⟩
    rw [hc] at hr
    cases ok <;> simp_all [zero_shot, hc]

theorem few_shot_head (chat : String → List Entry → ChatResponse)
    (catalog : List String) (events : List ProgressEvent) (model_name : String)
    (training_data : List (String × String)) (message : String) :
    (few_shot chat catalog events model_name training_data message).1.head?
      = some Effect.listModels := by
  rcases check_effects_cons catalog model_name events with ⟨rest, hr⟩
  rcases hc : check_and_download_model catalog model_name events with ⟨eff, ok⟩
  rw [hc] at hr
  cases ok <;> simp_all [few_shot, hc]

theorem chain_of_reasoning_zero_shot_head (chat : String → List Entry → ChatResponse)
    (catalog : List String) (events : List ProgressEvent) (model_name message : String) :
    (chain_of_reasoning_zero_shot chat catalog events model_name message).1.head?
      = some Effect.listModels := by
  rcases check_effects_cons catalog model_name events with ⟨rest, hr⟩
  rcases hc : check_and_download_model catalog model_name events with ⟨eff, ok⟩
  rw [hc] at hr
  cases ok <;> simp_all [chain_of_reasoning_zero_shot, hc]

theorem chain_of_reasoning_few_shot_head (chat : String → List Entry → ChatResponse)
    (catalog : List String) (events : List ProgressEvent) (model_name : String)
    (training_data : List (String × String)) (message : String) :
    (chain_of_reasoning_few_shot chat catalog events model_name
      training_data message).1.head? = some Effect.listModels := by
  rcases check_effects_cons catalog model_name events with ⟨rest, hr⟩
  rcases hc : check_and_download_model catalog model_name events with ⟨eff, ok⟩
  rw [hc] at hr
  cases ok <;> simp_all [chain_of_reasoning_few_shot, hc]

/-- Folding a list with a function that ignores its accumulator yields the
image of the last element. -/
theorem foldl_overwrite {α β : Type} (g : α → β) (l : List α) :
    ∀ (hne : l ≠ []) (init : β), l.foldl (fun _ x => g x) init = g (l.getLast hne) := by
  induction l with
  | nil => intro h; exact absurd rfl h
  | cons x l ih =>
    intro h init
    cases l with
    | nil => rfl
    | cons y l2 =>
      rw [List.foldl_cons, ih (List.cons_ne_nil y l2)]
      rfl

/-- The accumulator of lines 84-86 holds exactly the interpolation of the
last training pair when training_data is non-empty. -/
theorem few_shot_message_getLast (training_data : List (String × String))
    (hne : training_data ≠ []) :
    few_shot_message training_data
      = "Input: " ++ (training_data.getLast hne).1 ++ "\nOutput: "
          ++ (training_data.getLast hne).2 ++ "\n" := by
  unfold few_shot_message
  exact foldl_overwrite
    (fun pair => "Input: " ++ pair.1 ++ "\nOutput: " ++ pair.2 ++ "\n")
    training_data hne "\n\n"

/-- C7: for every chat endpoint, catalog, pull-event stream, model name and
message, once the model check completes without raising, zero_shot performs a
single chat call whose message list is exactly the one-element list holding
the user-role message, and returns the assistant content of that call's
response. -/
theorem zero_shot_single_user_call (chat : String → List Entry → ChatResponse)
    (catalog : List String) (events : List ProgressEvent) (model_name message : String)
    (hck : (check_and_download_model catalog model_name events).2 = true) :
    chatCallsOf (zero_shot chat catalog events model_name message).1
      = [(model_name, [Entry.msg ⟨"user", message⟩])]
    ∧ (zero_shot chat catalog events model_name message).2
      = Except.ok ((chat model_name [Entry.msg ⟨"user", message⟩]).message.content) :=
  zero_shot_calls chat catalog events model_name message hck

/-- C7 witness: zero_shot at a cached model "m" and message "Hi" issues
exactly the chat call with message list [user "Hi"]. -/
theorem zero_shot_single_user_call_witness :
    chatCallsOf (zero_shot constChat ["m"] [] "m" "Hi").1
      = [("m", [Entry.msg ⟨"user", "Hi"⟩])]
    ∧ (zero_shot constChat ["m"] [] "m" "Hi").2 = Except.ok "ok" :=
  zero_shot_single_user_call constChat ["m"] [] "m" "Hi" (by decide)

/-- C1: for every non-empty training-data list and every message, the single
outgoing user prompt of few_shot is built from only the last training pair
(the interpolation of the last pair, two newlines, then the message); and at
pairs [("a","1"),("b","2")] with message "Q" the outgoing prompt contains the
interpolation of ("b","2") and not that of ("a","1"). -/
theorem few_shot_last_pair_only (chat : String → List Entry → ChatResponse)
    (catalog : List String) (events : List ProgressEvent) (model_name : String)
    (training_data : List (String × String)) (message : String)
    (hck : (check_and_download_model catalog model_name events).2 = true)
    (hne : training_data ≠ []) :
    chatCallsOf (few_shot chat catalog events model_name training_data message).1
      = [(model_name, [Entry.msg ⟨"user",
          "Input: " ++ (training_data.getLast hne).1 ++ "\nOutput: "
            ++ (training_data.getLast hne).2 ++ "\n" ++ "\n\n" ++ message⟩])]
    ∧ ("Input: b\nOutput: 2\n".toList <:+:
         (few_shot_message [("a", "1"), ("b", "2")] ++ "\n\n" ++ "Q").toList)
    ∧ ¬ ("Input: a\nOutput: 1\n".toList <:+:
         (few_shot_message [("a", "1"), ("b", "2")] ++ "\n\n" ++ "Q").toList) := by
  refine ⟨?_, by decide, by decide⟩
  rw [few_shot_calls chat catalog events model_name training_data message hck]
  rw [few_shot_message_getLast training_data hne]

/-- C1 witness: few_shot at pairs [("a","1"),("b","2")] and message "Q" sends
the prompt built from ("b","2") alone. -/
theorem few_shot_last_pair_only_witness :
    chatCallsOf (few_shot constChat ["m"] [] "m" [("a", "1"), ("b", "2")] "Q").1
      = [("m", [Entry.msg ⟨"user", "Input: b\nOutput: 2\n\n\nQ"⟩])]
    ∧ ("Input: b\nOutput: 2\n".toList <:+:
         (few_shot_message [("a", "1"), ("b", "2")] ++ "\n\n" ++ "Q").toList)
    ∧ ¬ ("Input: a\nOutput: 1\n".toList <:+:
         (few_shot_message [("a", "1"), ("b", "2")] ++ "\n\n" ++ "Q").toList) :=
  few_shot_last_pair_only constChat ["m"] [] "m" [("a", "1"), ("b", "2")] "Q"
    (by decide) (by decide)

/-- C4: for every chat endpoint, catalog, pull-event stream, model name and
message, once the model check completes without raising,
chain_of_reasoning_zero_shot performs exactly two chat calls: the first with
the user message followed by the assistant nudge "Let's think step by step.",
the second with the first call's response record followed by the assistant
nudge "Therefore, the final answer is ", whose response content is returned
as the final answer. -/
theorem chain_of_reasoning_two_calls (chat : String → List Entry → ChatResponse)
    (catalog : List String) (events : List ProgressEvent) (model_name message : String)
    (hck : (check_and_download_model catalog model_name events).2 = true) :
    chatCallsOf (chain_of_reasoning_zero_shot chat catalog events model_name message).1
      = [(model_name, [Entry.msg ⟨"user", message⟩,
                       Entry.msg ⟨"assistant", "Let's think step by step."⟩]),
         (model_name,
          [Entry.resp (chat model_name
             [Entry.msg ⟨"user", message⟩,
              Entry.msg ⟨"assistant", "Let's think step by step."⟩]),
           Entry.msg ⟨"assistant", "Therefore, the final answer is "⟩])]
    ∧ (chain_of_reasoning_zero_shot chat catalog events model_name message).2
      = Except.ok ((chat model_name
          [Entry.resp (chat model_name
             [Entry.msg ⟨"user", message⟩,
              Entry.msg ⟨"assistant", "Let's think step by step."⟩]),
           Entry.msg ⟨"assistant", "Therefore, the final answer is "⟩]).message.content) :=
  chain_of_reasoning_zero_shot_calls chat catalog events model_name message hck

/-- C4 witness: the two calls of chain_of_reasoning_zero_shot at a cached
model "m", message "Q" and a constant chat endpoint. -/
theorem chain_of_reasoning_two_calls_witness :
    chatCallsOf (chain_of_reasoning_zero_shot constChat ["m"] [] "m" "Q").1
      = [("m", [Entry.msg ⟨"user", "Q"⟩,
                Entry.msg ⟨"assistant", "Let's think step by step."⟩]),
         ("m", [Entry.resp ⟨⟨"assistant", "ok"⟩⟩,
                Entry.msg ⟨"assistant", "Therefore, the final answer is "⟩])]
    ∧ (chain_of_reasoning_zero_shot constChat ["m"] [] "m" "Q").2 = Except.ok "ok" :=
  chain_of_reasoning_two_calls constChat ["m"] [] "m" "Q" (by decide)

/-- C10: for every chat endpoint, catalog, pull-event stream, model name,
training-data list and message, once the model check completes,
chain_of_reasoning_few_shot fails with AttributeError while building the
few-shot prompt (plain lists provide no .map method) and records no chat
call at all. -/
theorem chain_of_reasoning_few_shot_no_chat (chat : String → List Entry → ChatResponse)
    (catalog : List String) (events : List ProgressEvent) (model_name : String)
    (training_data : List (String × String)) (message : String)
    (hck : (check_and_download_model catalog model_name events).2 = true) :
    (chain_of_reasoning_few_shot chat catalog events model_name training_data message).2
      = Except.error "AttributeError: list object has no attribute map"
    ∧ chatCallsOf (chain_of_reasoning_few_shot chat catalog events model_name
        training_data message).1 = [] :=
  ⟨chain_of_reasoning_few_shot_result chat catalog events model_name
     training_data message hck,
   chain_of_reasoning_few_shot_calls chat catalog events model_name
     training_data message⟩

/-- C10 witness: the failure at a cached model "m" with two training pairs. -/
theorem chain_of_reasoning_few_shot_no_chat_witness :
    (chain_of_reasoning_few_shot constChat ["m"] [] "m"
       [("x", "1"), ("y", "2")] "W").2
      = Except.error "AttributeError: list object has no attribute map"
    ∧ chatCallsOf (chain_of_reasoning_few_shot constChat ["m"] [] "m"
        [("x", "1"), ("y", "2")] "W").1 = [] :=
  chain_of_reasoning_few_shot_no_chat constChat ["m"] [] "m"
    [("x", "1"), ("y", "2")] "W" (by decide)

/-- C5: the code refutes the claimed two-call pattern. At cached model "m",
training pairs [("a","1")] and message "Q", chain_of_reasoning_few_shot
raises AttributeError at the training_data.map access of line 140, after the
banner print and before either chat call, so the claimed two chat calls with
all pairs prefixed never happen. -/
theorem chain_of_reasoning_few_shot_map_failure :
    chain_of_reasoning_few_shot constChat ["m"] [] "m" [("a", "1")] "Q"
      = ([Effect.listModels,
          Effect.printLine "Model Cached - Using Cached Version...",
          Effect.printLine "Few Shot - Chain of Reasoning (m): 1 Samples"],
         Except.error "AttributeError: list object has no attribute map") := by rfl

/-- C8 counterexample: chain_of_reasoning_few_shot performs zero chat calls
at this concrete input, not the two the claim states for the
chain-of-reasoning variants. -/
theorem four_variants_counterexample :
    (chatCallsOf (chain_of_reasoning_few_shot constChat ["m"] [] "m"
      [("a", "1"), ("b", "2")] "Q").1).length ≠ 2 := by decide

/-- C8 amended: in each of the four variants the model-presence check comes
first (its catalog query is the variant's first recorded effect, before any
chat call), and, once the check completes without raising, zero_shot and
few_shot perform exactly one chat call and chain_of_reasoning_zero_shot
exactly two, with no retry; chain_of_reasoning_few_shot fails before its
first chat call and performs none. -/
theorem four_variants_check_before_chat (chat : String → List Entry → ChatResponse)
    (catalog : List String) (events : List ProgressEvent) (model_name : String)
    (training_data : List (String × String)) (message : String)
    (hck : (check_and_download_model catalog model_name events).2 = true) :
    ((zero_shot chat catalog events model_name message).1.head?
        = some Effect.listModels
      ∧ (chatCallsOf (zero_shot chat catalog events model_name message).1).length = 1)
    ∧ ((few_shot chat catalog events model_name training_data message).1.head?
        = some Effect.listModels
      ∧ (chatCallsOf (few_shot chat catalog events model_name
          training_data message).1).length = 1)
    ∧ ((chain_of_reasoning_zero_shot chat catalog events model_name message).1.head?
        = some Effect.listModels
      ∧ (chatCallsOf (chain_of_reasoning_zero_shot chat catalog events
          model_name message).1).length = 2)
    ∧ ((chain_of_reasoning_few_shot chat catalog events model_name
          training_data message).1.head? = some Effect.listModels
      ∧ (chatCallsOf (chain_of_reasoning_few_shot chat catalog events model_name
          training_data message).1).length = 0) := by
  refine ⟨⟨zero_shot_head chat catalog events model_name message, ?_⟩,
    ⟨few_shot_head chat catalog events model_name training_data message, ?_⟩,
    ⟨chain_of_reasoning_zero_shot_head chat catalog events model_name message, ?_⟩,
    ⟨chain_of_reasoning_few_shot_head chat catalog events model_name
       training_data message, ?_⟩⟩
  · rw [(zero_shot_calls chat catalog events model_name message hck).1]
    rfl
  · rw [few_shot_calls chat catalog events model_name training_data message hck]
    rfl
  · rw [(chain_of_reasoning_zero_shot_calls chat catalog events model_name
      message hck).1]
    rfl
  · rw [chain_of_reasoning_few_shot_calls chat catalog events model_name
      training_data message]
    rfl

/-- C8 amended witness at a cached model and concrete inputs. -/
theorem four_variants_check_before_chat_witness :
    ((zero_shot constChat ["m"] [] "m" "Q").1.head? = some Effect.listModels
      ∧ (chatCallsOf (zero_shot constChat ["m"] [] "m" "Q").1).length = 1)
    ∧ ((few_shot constChat ["m"] [] "m" [("a", "1")] "Q").1.head?
        = some Effect.listModels
      ∧ (chatCallsOf (few_shot constChat ["m"] [] "m" [("a", "1")] "Q").1).length = 1)
    ∧ ((chain_of_reasoning_zero_shot constChat ["m"] [] "m" "Q").1.head?
        = some Effect.listModels
      ∧ (chatCallsOf (chain_of_reasoning_zero_shot constChat ["m"] [] "m" "Q").1).length
          = 2)
    ∧ ((chain_of_reasoning_few_shot constChat ["m"] [] "m" [("a", "1")] "Q").1.head?
        = some Effect.listModels
      ∧ (chatCallsOf (chain_of_reasoning_few_shot constChat ["m"] [] "m"
          [("a", "1")] "Q").1).length = 0) :=
  four_variants_check_before_chat constChat ["m"] [] "m" [("a", "1")] "Q" (by decide)

/-- The event sequence of claim C2: two chunks A and B, A declaring a total
of 100 and completing in two steps, then B declaring total 10 and completing
at once. -/
def c2Events : List ProgressEvent :=
  [⟨"A", none, some 100, none⟩, ⟨"A", none, none, some 50⟩,
   ⟨"A", none, none, some 100⟩, ⟨"B", none, some 10, some 10⟩]

/-- C2: consuming c2Events, the progress loop completes without raising and
its display trace is exactly: open A at total 100, update A to 50, update A
to 100, close A at final displayed progress 100, open B at total 10, update
B to 10. In particular the close of indicator A, carrying final displayed
progress 100, occurs strictly before the opening of indicator B, as the
trailing decomposition states. -/
theorem progress_close_before_open :
    (processEvents initPull c2Events).2 = true
    ∧ (processEvents initPull c2Events).1.trace
        = [BarAction.barOpen "A" 100, BarAction.barUpdate "A" 50,
           BarAction.barUpdate "A" 100, BarAction.barClose "A" 100,
           BarAction.barOpen "B" 10, BarAction.barUpdate "B" 10]
    ∧ ∃ pre post, (processEvents initPull c2Events).1.trace
        = pre ++ BarAction.barClose "A" 100 :: BarAction.barOpen "B" 10 :: post :=
  ⟨by decide, by decide,
   ⟨[BarAction.barOpen "A" 100, BarAction.barUpdate "A" 50, BarAction.barUpdate "A" 100],
    [BarAction.barUpdate "B" 10], by decide⟩⟩

/-- Dict update and lookup interact pointwise. -/
theorem lookupBar_setBar (bars : List (String × Bar)) (d : String) (v : Bar)
    (x : String) :
    lookupBar (setBar bars d v) x
      = if d = x then some v else lookupBar bars x := by
  induction bars with
  | nil => by_cases h : d = x <;> simp [setBar, lookupBar, h]
  | cons kb rest ih =>
    rcases kb with ⟨k, b⟩
    by_cases hk : k = d
    · subst hk
      by_cases hx : k = x <;> simp [setBar, lookupBar, hx]
    · by_cases hx : k = x
      · subst hx
        have hd : ¬ d = k := fun hh => hk hh.symm
        simp [setBar, lookupBar, hk, hd]
      · simp [setBar, lookupBar, hk, hx, ih]

/-- Closing the current bar never adds a key: a missing digest stays
missing. -/
theorem closeCurrent_missing (st : PullState) (h : String)
    (hnb : lookupBar st.bars h = none) :
    lookupBar (closeCurrent st).bars h = none := by
  unfold closeCurrent
  rcases hc : lookupBar st.bars st.currentDigest with _ | b
  · exact hnb
  · have hne : ¬ st.currentDigest = h := by
      intro he; rw [he, hnb] at hc; cases hc
    by_cases hb : b.closed
    · simp [hb, hnb]
    · simp [hb, lookupBar_setBar, hne, hnb]

theorem stepClose_missing (st : PullState) (digest h : String)
    (hnb : lookupBar st.bars h = none) :
    lookupBar (stepClose st digest).bars h = none := by
  unfold stepClose
  split
  · exact closeCurrent_missing st h hnb
  · exact hnb

theorem stepClose_currentDigest (st : PullState) (digest : String) :
    (stepClose st digest).currentDigest = st.currentDigest := by
  unfold stepClose closeCurrent
  split
  · split
    · rfl
    · split <;> rfl
  · rfl

/-- Opening with an absent total changes nothing. -/
theorem stepOpen_none (st : PullState) (digest : String) :
    stepOpen st digest none = st := by
  unfold stepOpen
  split <;> rfl

/-- The open step only ever adds the event's own digest: any other missing
digest stays missing, and a digest whose event carries no total also stays
missing. -/
theorem stepOpen_missing (st : PullState) (digest h : String) (total : Option Nat)
    (hnb : lookupBar st.bars h = none) (htot : digest = h → total = none) :
    lookupBar (stepOpen st digest total).bars h = none := by
  by_cases hd : digest = h
  · rw [htot hd, stepOpen_none]; exact hnb
  · unfold stepOpen
    split
    · rcases total with _ | t
      · exact hnb
      · by_cases ht : t = 0
        · simp [ht, hnb]
        · simp [ht, lookupBar_setBar, hd, hnb]
    · exact hnb

/-- The update step fails on a digest that has no bar. -/
theorem stepUpdate_fail (st : PullState) (digest : String) (c : Nat) (hc : c ≠ 0)
    (hnb : lookupBar st.bars digest = none) :
    stepUpdate st digest (some c) = (st, false) := by
  unfold stepUpdate
  simp [hc, hnb]

/-- The update step never adds a key either. -/
theorem stepUpdate_missing (st : PullState) (digest h : String)
    (completed : Option Nat) (hnb : lookupBar st.bars h = none) :
    lookupBar (stepUpdate st digest completed).1.bars h = none := by
  unfold stepUpdate
  rcases completed with _ | c
  · exact hnb
  · by_cases hc : c = 0
    · simp [hc, hnb]
    · rcases hlk : lookupBar st.bars digest with _ | b
      · simp [hc, hlk, hnb]
      · have hd : ¬ digest = h := by
          intro he; rw [he, hnb] at hlk; cases hlk
        by_cases hb : b.closed <;> simp [hc, hlk, hb, hnb, lookupBar_setBar, hd]

/-- A loop iteration cannot create a bar for a digest whose events declare no
total: a missing digest stays missing across the iteration. -/
theorem processEvent_missing (st : PullState) (e : ProgressEvent) (h : String)
    (hnb : lookupBar st.bars h = none) (htot : e.digest = h → e.total = none) :
    lookupBar (processEvent st e).1.bars h = none := by
  unfold processEvent
  have h1 := stepClose_missing st e.digest h hnb
  split
  · exact h1
  · exact stepUpdate_missing _ e.digest h e.completed
      (stepOpen_missing _ e.digest h e.total h1 htot)

/-- A loop iteration raises at the update of line 41 when its event bears a
digest with a nonzero completed count, no truthy total was ever declared for
that digest, and no bar exists for it. -/
theorem processEvent_fails (st : PullState) (e : ProgressEvent) (h : String)
    (hne : h ≠ "") (hd : e.digest = h) (htot : e.total = none) (c : Nat)
    (hc : e.completed = some c) (hc0 : c ≠ 0)
    (hnb : lookupBar st.bars h = none) :
    (processEvent st e).2 = false := by
  have h1 := stepClose_missing st e.digest h hnb
  rw [hd] at h1
  unfold processEvent
  rw [hd, htot, hc]
  simp only [hne, if_false, stepOpen_none]
  rw [stepUpdate_fail _ h c hc0 h1]

/-- Over any suffix of the stream: if the watched digest has no bar yet,
some remaining event for it carries a nonzero completed count, and no
remaining event for it declares a total, the loop ends in a raise. -/
theorem processEvents_missing_fails (h : String) (hne : h ≠ "") :
    ∀ (es : List ProgressEvent) (st : PullState),
      lookupBar st.bars h = none →
      (∃ e ∈ es, e.digest = h ∧ ∃ c, e.completed = some c ∧ c ≠ 0) →
      (∀ e ∈ es, e.digest = h → e.total = none) →
      (processEvents st es).2 = false := by
  intro es
  induction es with
  | nil =>
    intro st _ hcomp _
    rcases hcomp with ⟨e, he, _⟩
    simp at he
  | cons e es ih =>
    intro st hnb hcomp htot
    rcases hpe : processEvent st e with ⟨st1, ok⟩
    cases ok
    · simp [processEvents, hpe]
    · have hnb1 : lookupBar st1.bars h = none := by
        have h2 := processEvent_missing st e h hnb (htot e (by simp))
        rw [hpe] at h2; exact h2
      rcases hcomp with ⟨e0, he0, hd0, c, hc, hc0⟩
      rcases List.mem_cons.mp he0 with he0 | he0
      · subst he0
        have hfail := processEvent_fails st e0 h hne hd0 (htot e0 (by simp) hd0)
          c hc hc0 hnb
        rw [hpe] at hfail
        cases hfail
      · have htail := ih st1 hnb1 ⟨e0, he0, hd0, c, hc, hc0⟩
          (fun e2 he2 hd2 => htot e2 (List.mem_cons_of_mem _ he2) hd2)
        simp [processEvents, hpe, htail]

/-- C3 counterexample: the single-event stream whose first (and only) event
for hash "A" carries a completed count, namely 0, while "A" never declares a
total, satisfies the claim's antecedent, yet the loop handles it and
terminates without any failure: the walrus truthiness test of line 40 treats
a completed value of 0 like an absent one, so no bar lookup ever happens. -/
theorem missing_total_zero_completed_ok :
    processEvents initPull [⟨"A", none, none, some 0⟩] = (⟨[], "A", []⟩, true) := by
  decide

/-- C3 amended: for every event stream in which some event for a non-empty
hash h carries a NONZERO completed count while no event for h ever declares
a total, the progress loop fails - the KeyError lookup failure of line 41 on
the missing indicator - rather than handling the event. -/
theorem missing_total_nonzero_fails (es : List ProgressEvent) (h : String)
    (hne : h ≠ "")
    (hcomp : ∃ e ∈ es, e.digest = h ∧ ∃ c, e.completed = some c ∧ c ≠ 0)
    (htot : ∀ e ∈ es, e.digest = h → e.total = none) :
    (processEvents initPull es).2 = false :=
  processEvents_missing_fails h hne es initPull rfl hcomp htot

/-- C3 amended witness: a single event for hash "A" with completed 50 and no
total makes the loop raise. -/
theorem missing_total_nonzero_fails_witness :
    (processEvents initPull [⟨"A", none, none, some 50⟩]).2 = false :=
  missing_total_nonzero_fails [⟨"A", none, none, some 50⟩] "A" (by decide)
    ⟨⟨"A", none, none, some 50⟩, by simp, rfl, 50, rfl, by decide⟩
    (by intro e he hd; simp at he; subst he; rfl)

/-- C6: check_and_download_model performs a pull if and only if the queried
model name is absent from the externally-reported catalog under exact string
match. With the name in the catalog there is no pull and the cached message
is printed; with the name absent there is exactly one pull,
"Model Uncached - Downloading..." is printed, and, whenever the pull stream
is consumed without raising, "Download Complete." is printed as well. -/
theorem check_pull_iff (catalog : List String) (model_name : String)
    (events : List ProgressEvent) :
    (model_name ∈ catalog →
       pullCallCount (check_and_download_model catalog model_name events).1 = 0
       ∧ Effect.printLine "Model Cached - Using Cached Version..."
           ∈ (check_and_download_model catalog model_name events).1)
    ∧ (model_name ∉ catalog →
       pullCallCount (check_and_download_model catalog model_name events).1 = 1
       ∧ Effect.printLine "Model Uncached - Downloading..."
           ∈ (check_and_download_model catalog model_name events).1
       ∧ ((check_and_download_model catalog model_name events).2 = true →
          Effect.printLine "Download Complete."
            ∈ (check_and_download_model catalog model_name events).1)) := by
  constructor
  · intro hm
    have hb : model_exists catalog model_name = true :=
      (model_exists_iff catalog model_name).mpr hm
    simp [check_and_download_model, hb, pullCallCount]
  · intro hm
    have hb : model_exists catalog model_name = false := by
      rcases hb2 : model_exists catalog model_name
      · rfl
      · exact absurd ((model_exists_iff catalog model_name).mp hb2) hm
    rcases hp : processEvents initPull events with ⟨st, ok⟩
    cases ok <;>
      simp [check_and_download_model, hb, hp, pullCallCount_append,
        pullCallCount_map_bar, pullCallCount]

/-- C6 witness: a cached instance (catalog containing "m") and an uncached
instance (catalog without "m", one well-formed pull event). -/
theorem check_pull_iff_witness :
    (pullCallCount (check_and_download_model ["m"] "m" []).1 = 0
      ∧ Effect.printLine "Model Cached - Using Cached Version..."
          ∈ (check_and_download_model ["m"] "m" []).1)
    ∧ (pullCallCount (check_and_download_model ["x"] "m"
          [⟨"A", none, some 10, some 10⟩]).1 = 1
      ∧ Effect.printLine "Model Uncached - Downloading..."
          ∈ (check_and_download_model ["x"] "m" [⟨"A", none, some 10, some 10⟩]).1
      ∧ Effect.printLine "Download Complete."
          ∈ (check_and_download_model ["x"] "m" [⟨"A", none, some 10, some 10⟩]).1) := by
  constructor
  · exact (check_pull_iff ["m"] "m" []).1 (by decide)
  · have h2 := (check_pull_iff ["x"] "m" [⟨"A", none, some 10, some 10⟩]).2 (by decide)
    exact ⟨h2.1, h2.2.1, h2.2.2 (by decide)⟩

/-- C9: an event carrying no hash, arriving while the previously seen hash
cd has an open indicator, does more than display its status: it closes that
indicator (recording its current displayed position) and leaves the
remembered current hash at cd instead of resetting it to the empty string;
consequently a following event bearing that same hash cd changes nothing at
all - in particular it triggers no second close action even though the
indicator for cd is already closed. -/
theorem nohash_event_closes_once (bars : List (String × Bar)) (cd : String)
    (tr : List BarAction) (b : Bar) (s s2 : Option String) (t c t2 c2 : Option Nat)
    (hcur : cd ≠ "") (hbar : lookupBar bars cd = some b)
    (hopen : b.closed = false) :
    processEvent ⟨bars, cd, tr⟩ ⟨"", s, t, c⟩
      = (⟨setBar bars cd { b with closed := true }, cd,
          tr ++ [BarAction.barClose cd b.n, BarAction.statusLine s]⟩, true)
    ∧ processEvent ⟨setBar bars cd { b with closed := true }, cd,
          tr ++ [BarAction.barClose cd b.n, BarAction.statusLine s]⟩
        ⟨cd, s2, t2, c2⟩
      = (⟨setBar bars cd { b with closed := true }, cd,
          tr ++ [BarAction.barClose cd b.n, BarAction.statusLine s]⟩, true) := by
  have hne : ¬ ("" = cd) := fun he => hcur he.symm
  constructor
  · simp [processEvent, stepClose, closeCurrent, hbar, hopen, hne]
  · have hlk : lookupBar (setBar bars cd { b with closed := true }) cd
        = some { b with closed := true } := by
      rw [lookupBar_setBar]; simp
    simp only [processEvent, stepClose, stepOpen, stepUpdate]
    simp [hlk, hcur]
    rcases t2 with _ | tv
    · rcases c2 with _ | cv
      · rfl
      · by_cases hcv : cv = 0 <;> simp [hcv, hlk]
    · rcases c2 with _ | cv
      · rfl
      · by_cases hcv : cv = 0 <;> simp [hcv, hlk]

/-- C9 witness: hash "A" has an open indicator at position 50; a digest-less
status event closes it and keeps "A" current; a following event for "A"
(completed 60) is a no-op. -/
theorem nohash_event_closes_once_witness :
    processEvent ⟨[("A", ⟨100, 50, false⟩)], "A", []⟩
        ⟨"", some "verifying", none, none⟩
      = (⟨[("A", ⟨100, 50, true⟩)], "A",
          [BarAction.barClose "A" 50, BarAction.statusLine (some "verifying")]⟩, true)
    ∧ processEvent ⟨[("A", ⟨100, 50, true⟩)], "A",
          [BarAction.barClose "A" 50, BarAction.statusLine (some "verifying")]⟩
        ⟨"A", none, none, some 60⟩
      = (⟨[("A", ⟨100, 50, true⟩)], "A",
          [BarAction.barClose "A" 50, BarAction.statusLine (some "verifying")]⟩, true) :=
  nohash_event_closes_once [("A", ⟨100, 50, false⟩)] "A" [] ⟨100, 50, false⟩
    (some "verifying") none none none none (some 60) (by decide) rfl rfl

end OllamaCached
